import Mathlib

/-!
Shallow embedding of the Azure VM orchestration script (`main.py`) and proofs
about its core components: the operation awaiter (`wait_for_operation`), the
deployment resolver and NAT-port configuration inside `deploy_vm`, the random
ephemeral port generator (`random_port`), the SSH liveness loop (`test_ssh`),
the teardown routine with its disk reclamation loop (`teardown`), and the
hosted-service bootstrap (`create_hosted_service`).

Provider interactions are modelled as oracles (pure functions standing for the
responses of the Azure API) and every routine returns the trace of provider
calls and sleeps it performs, so that frame and ordering properties can be
stated over traces.  Unbounded `while` loops are given explicit fuel; running
out of fuel yields `none`, so `some` results describe exactly the terminating
executions of the original loops.
-/

namespace AzureTesting

/-! ## Operation awaiter (`wait_for_operation`, main.py lines 39-62) -/

/-- Error payload attached to a terminal operation status (`status.error`). -/
structure StatusError where
  code : String
  message : String
deriving DecidableEq, Repr

/-- Result of `sms.get_operation_status`: a status string and an optional error. -/
structure OperationStatus where
  status : String
  error : Option StatusError
deriving DecidableEq, Repr

/-- The exception `OperationFailed(code, message)` raised by `wait_for_operation`. -/
structure OperationFailed where
  code : String
  message : String
deriving DecidableEq, Repr

/-- The polling loop of `wait_for_operation`: starting at poll index `i`, return
the first status whose `status` field differs from "InProgress".  `poll` is the
provider oracle giving the status observed by the k-th call to
`sms.get_operation_status`; `fuel` bounds the number of polls (the source loop
is unbounded, so `none` means the loop would still be running). -/
def pollUntilTerminal (poll : Nat → OperationStatus) : Nat → Nat → Option OperationStatus
  | _, 0 => none
  | i, fuel + 1 =>
    let st := poll i
    if st.status ≠ "InProgress" then some st
    else pollUntilTerminal poll (i + 1) fuel

/-- `wait_for_operation(sms, operation)`: poll until the status leaves
"InProgress"; then raise `OperationFailed(status.error.code, status.error.message)`
when `status.error is not None`, and return normally otherwise. -/
def wait_for_operation (poll : Nat → OperationStatus) (fuel : Nat) :
    Option (Except OperationFailed Unit) :=
  (pollUntilTerminal poll 0 fuel).map fun st =>
    match st.error with
    | some e => Except.error ⟨e.code, e.message⟩
    | none => Except.ok ()

/-! ## Random ephemeral ports (`random_port`, main.py line 68-69) -/

/-- Model of Python's `random.randint(lo, hi)`: a uniformly drawn integer in the
inclusive range `[lo, hi]`, here made deterministic in the random draw. -/
def randint (lo hi draw : Nat) : Nat := lo + draw % (hi + 1 - lo)

/-- `random_port()`: `random.randint(2**12, 2**16) - 1`. -/
def random_port (draw : Nat) : Nat := randint (2 ^ 12) (2 ^ 16) draw - 1

/-! ## NAT port configuration (`deploy_vm`, main.py lines 106-127) -/

/-- One entry of `vm_config.net.nat_ports`. -/
structure NatPort where
  name : String
  protocol : String
  port : Nat
  lb : Bool
deriving DecidableEq, Repr

/-- The `ConfigurationSetInputEndpoint` built for one NAT port. -/
structure InputEndpoint where
  name : String
  protocol : String
  local_port : Nat
  port : Nat
  load_balanced_endpoint_set_name : Option String
deriving DecidableEq, Repr

/-- The per-port body of the NAT-port loop in `deploy_vm`: a load-balanced port
reuses the declared port and is tagged with the shared set name
`"lb-{name}"`; otherwise the external port is `random_port()` (the random draw
is passed in explicitly). -/
def endpointForPort (draw : Nat) (p : NatPort) : InputEndpoint :=
  if p.lb then
    { name := p.name
      protocol := p.protocol
      local_port := p.port
      port := p.port
      load_balanced_endpoint_set_name := some ("lb-" ++ p.name) }
  else
    { name := p.name
      protocol := p.protocol
      local_port := p.port
      port := random_port draw
      load_balanced_endpoint_set_name := none }

/-! ## Deployment resolver (`deploy_vm`, main.py lines 239-263) -/

/-- One VM role inside a deployment, restricted to the data teardown consumes:
`role.os_virtual_hard_disk` (keeping only its `disk_name`) and
`role.data_virtual_hard_disks` (keeping each `disk_name`). -/
structure Role where
  os_virtual_hard_disk : String
  data_virtual_hard_disks : List String
deriving DecidableEq, Repr

/-- A deployment as returned by the provider: its name and its role list. -/
structure Deployment where
  name : String
  role_list : List Role
deriving DecidableEq, Repr

/-- Outcome of an Azure fetch call: the resource, the
`WindowsAzureMissingResourceError` exception, or any other exception (which the
source code does not catch and therefore propagates). -/
inductive FetchOutcome (α : Type)
  | found (a : α)
  | missingResource
  | otherError (e : String)
deriving DecidableEq, Repr

/-- The API method chosen by `deploy_vm` and the deployment-creation kwargs it
adds: `create_virtual_machine_deployment` with `deployment_slot`, `label` and
`virtual_network_name`, or `add_role` with no extra kwargs. -/
inductive DeployMethod
  | createVirtualMachineDeployment (deployment_slot label virtual_network_name : String)
  | addRole
deriving DecidableEq, Repr

/-- The try/except around `sms.get_deployment_by_name` in `deploy_vm`: a
`WindowsAzureMissingResourceError` selects `create_virtual_machine_deployment`
with `deployment_slot = "Production"`, `label = vm_name` and
`virtual_network_name = network_name`; a found deployment selects
`sms.add_role`; any other exception propagates. -/
def resolveDeployMethod (fetch : FetchOutcome Deployment) (vm_name network_name : String) :
    Except String DeployMethod :=
  match fetch with
  | FetchOutcome.missingResource =>
    Except.ok (DeployMethod.createVirtualMachineDeployment "Production" vm_name network_name)
  | FetchOutcome.found _ => Except.ok DeployMethod.addRole
  | FetchOutcome.otherError e => Except.error e

/-! ## SSH liveness loop (`ssh_up` and `test_ssh`, main.py lines 22-36 and 298-306) -/

/-- An entry of `ssh_targets`: `(instance_name, host, port)`. -/
structure SshTarget where
  instance_name : String
  host : String
  port : Nat
deriving DecidableEq, Repr

/-- The decision core of `ssh_up`: the network outcome is `none` when the
connection or the read raised `socket.error`/`socket.timeout`, and
`some data` when `s.recv(64)` returned `data`; the target is up exactly when
the stripped banner starts with "SSH". -/
def ssh_up (recvOutcome : Option String) : Bool :=
  match recvOutcome with
  | none => false
  | some data => data.trim.startsWith "SSH"

/-- Observable step of the `test_ssh` polling loop: one probe of a target with
its outcome, or the `time.sleep(1)` executed after a failed probe. -/
inductive LiveEvent
  | probe (t : SshTarget) (ok : Bool)
  | sleepOne
deriving DecidableEq, Repr

/-- The `while ssh_targets:` loop of `test_ssh`: pop the head of the FIFO
queue, probe it (`up i t` is the outcome of the probe performed at global step
`i`), drop it on success, and on failure append it back at the tail and sleep
1 second.  `fuel` bounds the number of iterations of the unbounded source
loop; `none` means the loop is still running after `fuel` iterations. -/
def sshLoop (up : Nat → SshTarget → Bool) : Nat → List SshTarget → Nat → Option (List LiveEvent)
  | _, [], _ => some []
  | _, _ :: _, 0 => none
  | i, t :: rest, fuel + 1 =>
    if up i t then
      (sshLoop up (i + 1) rest fuel).map fun tr => LiveEvent.probe t true :: tr
    else
      (sshLoop up (i + 1) (rest ++ [t]) fuel).map fun tr =>
        LiveEvent.probe t false :: LiveEvent.sleepOne :: tr

/-! ## Teardown and the disk reclamation loop (`teardown`, main.py lines 309-362) -/

/-- A hosted service fetched with `embed_detail = True`: its deployments. -/
structure Service where
  deployments : List Deployment
deriving DecidableEq, Repr

/-- A disk as returned by `sms.get_disk`: it has a `name` and an `attached_to`
field (`none` when the disk is detached, `some role_name` otherwise). -/
structure FetchedDisk where
  name : String
  attached_to : Option String
deriving DecidableEq, Repr

/-- An entry of the `disks_to_delete` work queue.  `raw` is a disk reference
coming from `role.os_virtual_hard_disk` or `role.data_virtual_hard_disks`
(identified by its `disk_name`, with no `attached_to` attribute); `fetched` is
a disk previously returned by `sms.get_disk` and re-queued (it does carry
`attached_to`, which is how the source detects a re-fetched disk via
`hasattr(candidate, "attached_to")`). -/
inductive DiskCandidate
  | raw (disk_name : String)
  | fetched (d : FetchedDisk)
deriving DecidableEq, Repr

/-- Name normalization at the top of the loop body: a `raw` reference gets
`candidate.name = candidate.disk_name`; a `fetched` disk already has `name`. -/
def candidateName : DiskCandidate → String
  | DiskCandidate.raw disk_name => disk_name
  | DiskCandidate.fetched d => d.name

/-- The `hasattr(candidate, "attached_to")` test of the loop body. -/
def hasAttachedField : DiskCandidate → Bool
  | DiskCandidate.raw _ => false
  | DiskCandidate.fetched _ => true

/-- Observable provider calls and sleeps performed by `teardown`.  The event
vocabulary includes `deleteImage` (the provider's OS-image deletion call, which
`snapshot` resources are subject to) so that its absence from teardown traces
is expressible. -/
inductive Event
  | getService (name : String)
  | deleteDeployment (service_name deployment_name : String)
  | waitOperation
  | sleep (seconds : Nat)
  | getDisk (disk_name : String) (attached_to : Option String)
  | deleteDisk (disk_name : String) (delete_vhd : Bool)
  | deleteService (name : String)
  | deleteImage (image_name : String)
deriving DecidableEq, Repr

/-- The `while disks_to_delete:` loop of `teardown`.  `oracle k` is the
`attached_to` field of the disk returned by the k-th `sms.get_disk` call of
this teardown run.  Per iteration: pop the head, normalize its name, sleep 10
seconds when the candidate carries `attached_to` (i.e. was re-fetched before),
re-fetch the disk; if still attached, append the fetched disk at the tail and
continue, otherwise delete the disk with `delete_vhd=True`.  Returns the next
oracle index and the event trace, or `none` when `fuel` iterations did not
drain the queue. -/
def diskLoop (oracle : Nat → Option String) :
    Nat → List DiskCandidate → Nat → Option (Nat × List Event)
  | k, [], _ => some (k, [])
  | _, _ :: _, 0 => none
  | k, c :: rest, fuel + 1 =>
    let nm := candidateName c
    let pre : List Event := if hasAttachedField c then [Event.sleep 10] else []
    match oracle k with
    | some role =>
      match diskLoop oracle (k + 1) (rest ++ [DiskCandidate.fetched ⟨nm, some role⟩]) fuel with
      | none => none
      | some (k', tr) => some (k', pre ++ Event.getDisk nm (some role) :: tr)
    | none =>
      match diskLoop oracle (k + 1) rest fuel with
      | none => none
      | some (k', tr) =>
        some (k', pre ++ Event.getDisk nm none :: Event.deleteDisk nm true :: tr)

/-- The `disks_to_delete` list built from a deployment's `role_list`: for each
role, `append(role.os_virtual_hard_disk)` then
`extend(role.data_virtual_hard_disks)`. -/
def collectDisks (roles : List Role) : List DiskCandidate :=
  roles.flatMap fun r =>
    DiskCandidate.raw r.os_virtual_hard_disk ::
      r.data_virtual_hard_disks.map DiskCandidate.raw

/-- The `for deployment in service.deployments:` loop of `teardown`: per
deployment, delete the deployment, wait on the operation, then run the disk
reclamation loop, threading the `get_disk` oracle index through. -/
def processDeployments (oracle : Nat → Option String) (service_name : String) :
    Nat → List Deployment → Nat → Option (Nat × List Event)
  | k, [], _ => some (k, [])
  | k, d :: rest, fuel =>
    match diskLoop oracle k (collectDisks d.role_list) fuel with
    | none => none
    | some (k', tr) =>
      match processDeployments oracle service_name k' rest fuel with
      | none => none
      | some (k'', tr') =>
        some (k'',
          Event.deleteDeployment service_name d.name :: Event.waitOperation :: tr ++ tr')

/-- `teardown(sms, service_name)`: fetch the service with
`embed_detail = True` (`lookup` is the provider's answer; `none` stands for
`WindowsAzureMissingResourceError`); on a missing service just return, having
performed only the fetch.  Otherwise process every deployment and finally
delete the now-empty hosted service. -/
def teardown (lookup : String → Option Service) (oracle : Nat → Option String)
    (fuel : Nat) (service_name : String) : Option (List Event) :=
  match lookup service_name with
  | none => some [Event.getService service_name]
  | some svc =>
    match processDeployments oracle service_name 0 svc.deployments fuel with
    | none => none
    | some (_, tr) =>
      some (Event.getService service_name :: tr ++ [Event.deleteService service_name])

/-- Does a teardown event mutate provider state? -/
def isMutation : Event → Bool
  | Event.deleteDeployment _ _ => true
  | Event.deleteDisk _ _ => true
  | Event.deleteService _ => true
  | Event.deleteImage _ => true
  | _ => false

/-- The deletions `teardown` is allowed to perform against service `s`:
deployment deletion within `s`, disk deletion with its backing VHD, and the
deletion of `s` itself.  Image deletion in particular is not allowed. -/
def okTeardownEvent (s : String) : Event → Bool
  | Event.deleteImage _ => false
  | Event.deleteDeployment sv _ => decide (sv = s)
  | Event.deleteDisk _ delete_vhd => delete_vhd
  | Event.deleteService sv => decide (sv = s)
  | _ => true

/-- Scanner for the reclamation safety invariant: every `deleteDisk n _` event
must be immediately preceded by a `getDisk n none` event, i.e. by a re-fetch of
that very disk observing it detached. -/
def guardedDeletes : Option Event → List Event → Bool
  | _, [] => true
  | prev, e :: rest =>
    (match e with
     | Event.deleteDisk n _ => decide (prev = some (Event.getDisk n none))
     | _ => true) && guardedDeletes (some e) rest

/-- The disk names deleted along a trace, in order. -/
def deletedNames : List Event → List String
  | [] => []
  | Event.deleteDisk n _ :: rest => n :: deletedNames rest
  | _ :: rest => deletedNames rest

/-- Effect of one teardown event on the provider's service map (used to state
idempotence of teardown: after a mutation-free trace the map is unchanged). -/
def applyEvent (st : String → Option Service) : Event → (String → Option Service)
  | Event.deleteService n => fun q => if q = n then none else st q
  | Event.deleteDeployment sv d => fun q =>
    if q = sv then (st q).map fun svc => ⟨svc.deployments.filter fun dep => dep.name ≠ d⟩
    else st q
  | _ => st

/-- Effect of a whole trace on the provider's service map. -/
def applyEvents (st : String → Option Service) (events : List Event) : String → Option Service :=
  events.foldl applyEvent st

/-! ## Hosted service bootstrap (`create_hosted_service`, main.py lines 72-82) -/

/-- The slice of `get_hosted_service_properties` output that
`create_hosted_service` reads: `hosted_service_properties.location`. -/
structure HostedService where
  location : String
deriving DecidableEq, Repr

/-- Observable actions of `create_hosted_service`: the initial fetch, the
creation call, and the location-mismatch warning log. -/
inductive SvcEvent
  | getServiceProps (name : String)
  | createHostedService (service_name label location : String)
  | warnLocation (service_name real_location requested_location : String)
deriving DecidableEq, Repr

/-- Does a bootstrap event mutate provider state?  Only the creation call. -/
def isSvcMutation : SvcEvent → Bool
  | SvcEvent.createHostedService _ _ _ => true
  | _ => false

/-- `create_hosted_service(sms, service_name, service_location)`: fetch the
service; on `WindowsAzureMissingResourceError` create it with
`label = service_name` at the requested location; otherwise only warn when the
existing service's location differs from the requested one. -/
def create_hosted_service (lookup : String → Option HostedService)
    (service_name service_location : String) : List SvcEvent :=
  match lookup service_name with
  | none =>
    [SvcEvent.getServiceProps service_name,
     SvcEvent.createHostedService service_name service_name service_location]
  | some svc =>
    SvcEvent.getServiceProps service_name ::
      (if svc.location ≠ service_location then
        [SvcEvent.warnLocation service_name svc.location service_location]
      else [])

/-- Number of `sms.get_disk` calls recorded in a trace. -/
def fetchCount : List Event → Nat
  | [] => 0
  | Event.getDisk _ _ :: rest => fetchCount rest + 1
  | _ :: rest => fetchCount rest

/-- Provider behaviour for the three-poll scenario: the disk is reported
attached to "role-1" on the first two `get_disk` calls and detached on the
third. -/
def attachedTwiceOracle : Nat → Option String :=
  fun k => if k < 2 then some "role-1" else none

/-- The trace the reclamation loop produces in the three-poll scenario. -/
def attachedTwiceTrace : List Event :=
  [Event.getDisk "d" (some "role-1"), Event.sleep 10,
   Event.getDisk "d" (some "role-1"), Event.sleep 10,
   Event.getDisk "d" none, Event.deleteDisk "d" true]

/-! ## Theorems -/

/-- The polling loop only ever returns a status that has left "InProgress". -/
theorem pollUntilTerminal_terminal (poll : Nat → OperationStatus) :
    ∀ fuel i st, pollUntilTerminal poll i fuel = some st → st.status ≠ "InProgress" := by
  intro fuel
  induction fuel with
  | zero => intro i st h; exact absurd h (by simp [pollUntilTerminal])
  | succ n ih =>
    intro i st h
    unfold pollUntilTerminal at h
    by_cases hs : (poll i).status ≠ "InProgress"
    · rw [if_pos hs] at h
      rw [Option.some_inj] at h
      exact h ▸ hs
    · rw [if_neg hs] at h
      exact ih (i + 1) st h

/-- Claim C4: whenever the polling loop of `wait_for_operation` reaches a
terminal status (one whose `status` differs from "InProgress"), the function
raises `OperationFailed` carrying exactly the provider's error code and message
when the terminal status carries an error, and returns successfully (no
exception) when the terminal status carries no error. -/
theorem wait_for_operation_propagates_error (poll : Nat → OperationStatus) (fuel : Nat)
    (st : OperationStatus) (h : pollUntilTerminal poll 0 fuel = some st) :
    st.status ≠ "InProgress" ∧
    (∀ e, st.error = some e →
      wait_for_operation poll fuel = some (Except.error ⟨e.code, e.message⟩)) ∧
    (st.error = none → wait_for_operation poll fuel = some (Except.ok ())) := by
  refine ⟨pollUntilTerminal_terminal poll fuel 0 st h, ?_, ?_⟩
  · intro e he
    unfold wait_for_operation
    rw [h]
    simp [he]
  · intro he
    unfold wait_for_operation
    rw [h]
    simp [he]

/-- Witness for C4: a concrete operation that terminates with a failure status
carrying code "Conflict" and message "busy" makes `wait_for_operation` raise
exactly that code and message. -/
theorem wait_for_operation_propagates_error_witness :
    wait_for_operation (fun _ => ⟨"Failed", some ⟨"Conflict", "busy"⟩⟩) 1 =
      some (Except.error ⟨"Conflict", "busy"⟩) :=
  (wait_for_operation_propagates_error (fun _ => ⟨"Failed", some ⟨"Conflict", "busy"⟩⟩) 1
    ⟨"Failed", some ⟨"Conflict", "busy"⟩⟩ (by decide)).2.1 ⟨"Conflict", "busy"⟩ rfl

/-- Claim C2: the deployment resolver selects
`create_virtual_machine_deployment` if and only if the fetch of the deployment
raised `WindowsAzureMissingResourceError` (NotFound); in that case the slot is
"Production", the label is the VM name and the virtual network is bound at the
call; a found deployment selects `add_role`, and any other error propagates
without selecting a method. -/
theorem resolveDeployMethod_create_iff_notFound (fetch : FetchOutcome Deployment)
    (vm_name network_name : String) :
    ((∃ slot label vnet, resolveDeployMethod fetch vm_name network_name =
        Except.ok (DeployMethod.createVirtualMachineDeployment slot label vnet)) ↔
      fetch = FetchOutcome.missingResource) ∧
    (fetch = FetchOutcome.missingResource →
      resolveDeployMethod fetch vm_name network_name =
        Except.ok (DeployMethod.createVirtualMachineDeployment "Production" vm_name network_name)) ∧
    (∀ d, fetch = FetchOutcome.found d →
      resolveDeployMethod fetch vm_name network_name = Except.ok DeployMethod.addRole) ∧
    (∀ e, fetch = FetchOutcome.otherError e →
      resolveDeployMethod fetch vm_name network_name = Except.error e) := by
  refine ⟨⟨?_, ?_⟩, ?_, ?_, ?_⟩
  · rintro ⟨slot, label, vnet, h⟩
    cases fetch <;> simp [resolveDeployMethod] at h ⊢
  · rintro rfl
    exact ⟨"Production", vm_name, network_name, rfl⟩
  · rintro rfl
    rfl
  · rintro d rfl
    rfl
  · rintro e rfl
    rfl

/-- Witness for C2: with a NotFound fetch, the resolver picks the
deployment-creation call with slot "Production", the VM name as label, and the
given virtual network. -/
theorem resolveDeployMethod_create_iff_notFound_witness :
    resolveDeployMethod (FetchOutcome.missingResource) "vm-1" "vnet-1" =
      Except.ok (DeployMethod.createVirtualMachineDeployment "Production" "vm-1" "vnet-1") :=
  (resolveDeployMethod_create_iff_notFound FetchOutcome.missingResource "vm-1" "vnet-1").2.1 rfl

/-- Claim C3 (refuted: off-by-one in the code): `random_port` is
`random.randint(2**12, 2**16) - 1`, whose value set is the inclusive range
[4095, 65535], not the claimed [4096, 65535]: at the minimal draw the function
returns 4095, below the claimed lower bound 4096, while the upper bound 65535
does hold. -/
theorem random_port_lower_bound_bug :
    random_port 0 = 4095 ∧ random_port 0 < 4096 ∧
    (∀ draw, 4095 ≤ random_port draw ∧ random_port draw ≤ 65535) := by
  refine ⟨by decide, by decide, fun draw => ?_⟩
  unfold random_port randint
  have h : draw % (2 ^ 16 + 1 - 2 ^ 12) < 2 ^ 16 + 1 - 2 ^ 12 :=
    Nat.mod_lt draw (by norm_num)
  norm_num at h ⊢
  omega

/-- Claim C6: for a NAT port declared load-balanced, the endpoint configuration
does not depend on the random draw, so any two VMs provisioned from the same
template receive identical endpoints: both reference the load-balanced set
named "lb-" followed by the port's declared name, and both use the fixed
external port equal to the declared port. -/
theorem lb_ports_shared_across_vms (p : NatPort) (draw₁ draw₂ : Nat) (h : p.lb = true) :
    endpointForPort draw₁ p = endpointForPort draw₂ p ∧
    (endpointForPort draw₁ p).load_balanced_endpoint_set_name = some ("lb-" ++ p.name) ∧
    (endpointForPort draw₁ p).port = p.port := by
  simp [endpointForPort, h]

/-- Witness for C6: two different random draws give the same endpoint for a
load-balanced port named "http" on port 80, with set name "lb-http". -/
theorem lb_ports_shared_across_vms_witness :
    endpointForPort 5 ⟨"http", "tcp", 80, true⟩ = endpointForPort 99 ⟨"http", "tcp", 80, true⟩ ∧
    (endpointForPort 5 ⟨"http", "tcp", 80, true⟩).load_balanced_endpoint_set_name =
      some ("lb-" ++ "http") ∧
    (endpointForPort 5 ⟨"http", "tcp", 80, true⟩).port = 80 :=
  lb_ports_shared_across_vms ⟨"http", "tcp", 80, true⟩ 5 99 rfl

/-- Claim C10: when the hosted service already exists, `create_hosted_service`
issues no mutating call at all — in particular no creation — even when the
recorded location differs from the requested one, in which case it only logs a
warning; the creation call is issued exactly when the fetch reports the service
missing. -/
theorem create_hosted_service_frame (lookup : String → Option HostedService)
    (service_name service_location : String) :
    (∀ svc, lookup service_name = some svc →
      (∀ e ∈ create_hosted_service lookup service_name service_location,
        isSvcMutation e = false) ∧
      (svc.location ≠ service_location →
        create_hosted_service lookup service_name service_location =
          [SvcEvent.getServiceProps service_name,
           SvcEvent.warnLocation service_name svc.location service_location]) ∧
      (svc.location = service_location →
        create_hosted_service lookup service_name service_location =
          [SvcEvent.getServiceProps service_name])) ∧
    (lookup service_name = none →
      create_hosted_service lookup service_name service_location =
        [SvcEvent.getServiceProps service_name,
         SvcEvent.createHostedService service_name service_name service_location]) := by
  constructor
  · intro svc hsvc
    by_cases hl : svc.location = service_location
    · refine ⟨?_, fun hne => absurd hl hne, fun _ => ?_⟩ <;>
        simp [create_hosted_service, hsvc, hl, isSvcMutation]
    · refine ⟨?_, fun _ => ?_, fun heq => absurd heq hl⟩ <;>
        simp [create_hosted_service, hsvc, hl, isSvcMutation]
  · intro hnone
    simp [create_hosted_service, hnone]

/-- Witness for C10: an existing service recorded in "west" requested at
"east" yields only the fetch and a warning — no creation call. -/
theorem create_hosted_service_frame_witness :
    create_hosted_service (fun _ => some ⟨"west"⟩) "svc" "east" =
      [SvcEvent.getServiceProps "svc", SvcEvent.warnLocation "svc" "west" "east"] :=
  ((create_hosted_service_frame (fun _ => some ⟨"west"⟩) "svc" "east").1 ⟨"west"⟩ rfl).2.1
    (by decide)

/-- Every terminating run of the disk reclamation loop satisfies the delete
guard: each `deleteDisk` event is immediately preceded by a `getDisk` of the
same name observing `attached_to = none`, whatever event precedes the trace. -/
theorem diskLoop_guardedDeletes (oracle : Nat → Option String) :
    ∀ fuel k queue k' tr, diskLoop oracle k queue fuel = some (k', tr) →
      ∀ prev, guardedDeletes prev tr = true := by
  intro fuel
  induction fuel with
  | zero =>
    intro k queue k' tr h prev
    cases queue with
    | nil =>
      simp only [diskLoop, Option.some_inj, Prod.mk.injEq] at h
      obtain ⟨-, rfl⟩ := h
      rfl
    | cons c rest => simp [diskLoop] at h
  | succ n ih =>
    intro k queue k' tr h prev
    cases queue with
    | nil =>
      simp only [diskLoop, Option.some_inj, Prod.mk.injEq] at h
      obtain ⟨-, rfl⟩ := h
      rfl
    | cons c rest =>
      rw [diskLoop] at h
      split at h
      next role ho =>
        split at h
        next hrec => simp at h
        next k'' tr'' hrec =>
          simp only [Option.some_inj, Prod.mk.injEq] at h
          obtain ⟨-, rfl⟩ := h
          have htail := ih (k + 1)
            (rest ++ [DiskCandidate.fetched ⟨candidateName c, some role⟩]) k'' tr'' hrec
          cases hc : hasAttachedField c <;>
            simp [hc, guardedDeletes, htail]
      next ho =>
        split at h
        next hrec => simp at h
        next k'' tr'' hrec =>
          simp only [Option.some_inj, Prod.mk.injEq] at h
          obtain ⟨-, rfl⟩ := h
          have htail := ih (k + 1) rest k'' tr'' hrec
          cases hc : hasAttachedField c <;>
            simp [hc, guardedDeletes, htail]

/-- Every terminating run of the disk reclamation loop deletes exactly the
disks that were queued: the deleted names are a permutation of the queued
candidates' (normalized) names. -/
theorem diskLoop_deletes_all (oracle : Nat → Option String) :
    ∀ fuel k queue k' tr, diskLoop oracle k queue fuel = some (k', tr) →
      (deletedNames tr).Perm (queue.map candidateName) := by
  intro fuel
  induction fuel with
  | zero =>
    intro k queue k' tr h
    cases queue with
    | nil =>
      simp only [diskLoop, Option.some_inj, Prod.mk.injEq] at h
      obtain ⟨-, rfl⟩ := h
      simp [deletedNames]
    | cons c rest => simp [diskLoop] at h
  | succ n ih =>
    intro k queue k' tr h
    cases queue with
    | nil =>
      simp only [diskLoop, Option.some_inj, Prod.mk.injEq] at h
      obtain ⟨-, rfl⟩ := h
      simp [deletedNames]
    | cons c rest =>
      rw [diskLoop] at h
      split at h
      next role ho =>
        split at h
        next hrec => simp at h
        next k'' tr'' hrec =>
          simp only [Option.some_inj, Prod.mk.injEq] at h
          obtain ⟨-, rfl⟩ := h
          have htail := ih (k + 1)
            (rest ++ [DiskCandidate.fetched ⟨candidateName c, some role⟩]) k'' tr'' hrec
          have hnames : deletedNames
              ((if hasAttachedField c = true then [Event.sleep 10] else []) ++
                Event.getDisk (candidateName c) (some role) :: tr'') = deletedNames tr'' := by
            cases hc : hasAttachedField c <;> simp [hc, deletedNames]
          rw [hnames]
          refine htail.trans ?_
          simp only [List.map_append, List.map_cons, List.map_nil, List.map]
          exact List.perm_append_singleton (candidateName c) (rest.map candidateName)
      next ho =>
        split at h
        next hrec => simp at h
        next k'' tr'' hrec =>
          simp only [Option.some_inj, Prod.mk.injEq] at h
          obtain ⟨-, rfl⟩ := h
          have htail := ih (k + 1) rest k'' tr'' hrec
          have hnames : deletedNames
              ((if hasAttachedField c = true then [Event.sleep 10] else []) ++
                Event.getDisk (candidateName c) none ::
                  Event.deleteDisk (candidateName c) true :: tr'') =
              candidateName c :: deletedNames tr'' := by
            cases hc : hasAttachedField c <;> simp [hc, deletedNames]
          rw [hnames]
          exact List.Perm.cons (candidateName c) htail

/-- Claim C1: in every terminating execution of teardown's disk reclamation
loop, a disk is deleted only when the `get_disk` call immediately preceding the
deletion observed `attached_to = None` for that very disk, so no disk is ever
deleted while attached; and the loop ends only once every queued disk has been
observed unattached and deleted (the deleted names are a permutation of the
queued names). -/
theorem diskLoop_deletes_only_observed_unattached (oracle : Nat → Option String)
    (k : Nat) (queue : List DiskCandidate) (fuel k' : Nat) (tr : List Event)
    (h : diskLoop oracle k queue fuel = some (k', tr)) :
    guardedDeletes none tr = true ∧ (deletedNames tr).Perm (queue.map candidateName) :=
  ⟨diskLoop_guardedDeletes oracle fuel k queue k' tr h none,
   diskLoop_deletes_all oracle fuel k queue k' tr h⟩

/-- Witness for C1: a disk reported attached once and then detached is deleted
right after the fetch that saw it unattached, and the deleted names exhaust the
queue. -/
theorem diskLoop_deletes_only_observed_unattached_witness :
    guardedDeletes none [Event.getDisk "d" (some "r"), Event.sleep 10,
      Event.getDisk "d" none, Event.deleteDisk "d" true] = true ∧
    (deletedNames [Event.getDisk "d" (some "r"), Event.sleep 10,
      Event.getDisk "d" none, Event.deleteDisk "d" true]).Perm
      ([DiskCandidate.raw "d"].map candidateName) :=
  diskLoop_deletes_only_observed_unattached (fun k => if k = 0 then some "r" else none) 0
    [DiskCandidate.raw "d"] 3 2
    [Event.getDisk "d" (some "r"), Event.sleep 10,
     Event.getDisk "d" none, Event.deleteDisk "d" true] (by decide)

/-- Claim C5: with a single queued disk reported attached on the first two
fetches and unattached on the third, the reclamation loop performs exactly 3
`get_disk` fetches (at trace positions 0, 2 and 4), has a 10-second sleep
between the 2nd and the 3rd fetch (position 3), and ends by deleting the disk
together with its backing VHD. -/
theorem diskLoop_three_poll_scenario :
    diskLoop attachedTwiceOracle 0 [DiskCandidate.raw "d"] 3 = some (3, attachedTwiceTrace) ∧
    fetchCount attachedTwiceTrace = 3 ∧
    attachedTwiceTrace[2]? = some (Event.getDisk "d" (some "role-1")) ∧
    attachedTwiceTrace[3]? = some (Event.sleep 10) ∧
    attachedTwiceTrace[4]? = some (Event.getDisk "d" none) ∧
    attachedTwiceTrace.getLast? = some (Event.deleteDisk "d" true) := by
  decide

/-- Claim C7: teardown of an already-absent service performs only the service
fetch — no mutating provider call — returns without error, leaves the provider
service map unchanged, and a second invocation in succession behaves exactly
the same. -/
theorem teardown_absent_service_idempotent (lookup : String → Option Service)
    (oracle : Nat → Option String) (fuel : Nat) (s : String) (h : lookup s = none) :
    teardown lookup oracle fuel s = some [Event.getService s] ∧
    (∀ e ∈ ([Event.getService s] : List Event), isMutation e = false) ∧
    applyEvents lookup [Event.getService s] = lookup ∧
    teardown (applyEvents lookup [Event.getService s]) oracle fuel s =
      some [Event.getService s] := by
  have h1 : teardown lookup oracle fuel s = some [Event.getService s] := by
    unfold teardown
    rw [h]
  have h2 : applyEvents lookup [Event.getService s] = lookup := rfl
  exact ⟨h1, by simp [isMutation], h2, by rw [h2]; exact h1⟩

/-- Witness for C7: tearing down "svc" against a provider with no services is
a pure no-op returning only the fetch event. -/
theorem teardown_absent_service_idempotent_witness :
    teardown (fun _ => none) (fun _ => none) 0 "svc" = some [Event.getService "svc"] :=
  (teardown_absent_service_idempotent (fun _ => none) (fun _ => none) 0 "svc" rfl).1

/-- Every event in a terminating disk reclamation run is allowed for teardown:
a sleep, a disk fetch, or a disk deletion that also removes the backing VHD. -/
theorem diskLoop_events_allowed (oracle : Nat → Option String) (s : String) :
    ∀ fuel k queue k' tr, diskLoop oracle k queue fuel = some (k', tr) →
      tr.all (okTeardownEvent s) = true := by
  intro fuel
  induction fuel with
  | zero =>
    intro k queue k' tr h
    cases queue with
    | nil =>
      simp only [diskLoop, Option.some_inj, Prod.mk.injEq] at h
      obtain ⟨-, rfl⟩ := h
      rfl
    | cons c rest => simp [diskLoop] at h
  | succ n ih =>
    intro k queue k' tr h
    cases queue with
    | nil =>
      simp only [diskLoop, Option.some_inj, Prod.mk.injEq] at h
      obtain ⟨-, rfl⟩ := h
      rfl
    | cons c rest =>
      rw [diskLoop] at h
      split at h
      next role ho =>
        split at h
        next hrec => simp at h
        next k'' tr'' hrec =>
          simp only [Option.some_inj, Prod.mk.injEq] at h
          obtain ⟨-, rfl⟩ := h
          have htail := ih (k + 1)
            (rest ++ [DiskCandidate.fetched ⟨candidateName c, some role⟩]) k'' tr'' hrec
          cases hc : hasAttachedField c <;>
            simp [hc, List.all_append, okTeardownEvent, htail]
      next ho =>
        split at h
        next hrec => simp at h
        next k'' tr'' hrec =>
          simp only [Option.some_inj, Prod.mk.injEq] at h
          obtain ⟨-, rfl⟩ := h
          have htail := ih (k + 1) rest k'' tr'' hrec
          cases hc : hasAttachedField c <;>
            simp [hc, List.all_append, okTeardownEvent, htail]

/-- Every event in a terminating run of the per-deployment loop of `teardown`
is allowed: deployment deletions are for the given service, disk deletions keep
their backing VHD, and no other mutation appears. -/
theorem processDeployments_events_allowed (oracle : Nat → Option String) (s : String) :
    ∀ deps k fuel k' tr, processDeployments oracle s k deps fuel = some (k', tr) →
      tr.all (okTeardownEvent s) = true := by
  intro deps
  induction deps with
  | nil =>
    intro k fuel k' tr h
    simp only [processDeployments, Option.some_inj, Prod.mk.injEq] at h
    obtain ⟨-, rfl⟩ := h
    rfl
  | cons d rest ih =>
    intro k fuel k' tr h
    rw [processDeployments] at h
    split at h
    next hdl => simp at h
    next k1 tr1 hdl =>
      split at h
      next hp => simp at h
      next k2 tr2 hp =>
        simp only [Option.some_inj, Prod.mk.injEq] at h
        obtain ⟨-, rfl⟩ := h
        have h1 := diskLoop_events_allowed oracle s fuel k (collectDisks d.role_list) k1 tr1 hdl
        have h2 := ih k1 fuel k2 tr2 hp
        simp [List.all_cons, List.all_append, okTeardownEvent, h1, h2]

/-- Claim C9: teardown never deletes an OS image.  Every event of a terminating
teardown trace is an allowed one — in particular every deletion is a deployment
deletion on the torn-down service, a disk deletion together with its backing
VHD, or the deletion of the service itself — and no `deleteImage` call occurs
in the trace. -/
theorem teardown_never_deletes_images (lookup : String → Option Service)
    (oracle : Nat → Option String) (fuel : Nat) (s : String) (tr : List Event)
    (h : teardown lookup oracle fuel s = some tr) :
    tr.all (okTeardownEvent s) = true ∧ ∀ n, Event.deleteImage n ∉ tr := by
  have hall : tr.all (okTeardownEvent s) = true := by
    rw [teardown] at h
    split at h
    next hl =>
      simp only [Option.some_inj] at h
      subst h
      rfl
    next svc hl =>
      split at h
      next hp => simp at h
      next k1 tr1 hp =>
        simp only [Option.some_inj] at h
        subst h
        have h1 := processDeployments_events_allowed oracle s svc.deployments 0 fuel k1 tr1 hp
        simp [List.all_cons, List.all_append, okTeardownEvent, h1]
  refine ⟨hall, fun n hn => ?_⟩
  have := List.all_eq_true.mp hall _ hn
  simp [okTeardownEvent] at this

/-- Witness for C9: a full teardown of one service with one deployment, one
role, an OS disk and one data disk, immediately detached, yields a trace whose
events are all allowed (in particular, it contains no image deletion). -/
theorem teardown_never_deletes_images_witness :
    ([Event.getService "svc", Event.deleteDeployment "svc" "dep", Event.waitOperation,
      Event.getDisk "os-d" none, Event.deleteDisk "os-d" true,
      Event.getDisk "data-d" none, Event.deleteDisk "data-d" true,
      Event.deleteService "svc"] : List Event).all (okTeardownEvent "svc") = true :=
  (teardown_never_deletes_images
    (fun q => if q = "svc" then some ⟨[⟨"dep", [⟨"os-d", ["data-d"]⟩]⟩]⟩ else none)
    (fun _ => none) 2 "svc"
    [Event.getService "svc", Event.deleteDeployment "svc" "dep", Event.waitOperation,
     Event.getDisk "os-d" none, Event.deleteDisk "os-d" true,
     Event.getDisk "data-d" none, Event.deleteDisk "data-d" true,
     Event.deleteService "svc"] (by decide)).1

/-- A terminating run of the `test_ssh` polling loop implies that every target
of the starting queue was probed up successfully at least once. -/
theorem sshLoop_terminates_only_all_up (up : Nat → SshTarget → Bool) :
    ∀ fuel i queue tr, sshLoop up i queue fuel = some tr →
      ∀ t ∈ queue, ∃ j, up j t = true := by
  intro fuel
  induction fuel with
  | zero =>
    intro i queue tr h t ht
    cases queue with
    | nil => simp at ht
    | cons t0 rest => simp [sshLoop] at h
  | succ n ih =>
    intro i queue tr h t ht
    cases queue with
    | nil => simp at ht
    | cons t0 rest =>
      rw [sshLoop] at h
      by_cases hup : up i t0 = true
      · rw [if_pos hup] at h
        rcases List.mem_cons.mp ht with rfl | hmem
        · exact ⟨i, hup⟩
        · cases hrec : sshLoop up (i + 1) rest n with
          | none => rw [hrec] at h; simp at h
          | some tr' => exact ih (i + 1) rest tr' hrec t hmem
      · rw [if_neg hup] at h
        have hmem : t ∈ rest ++ [t0] := by
          rcases List.mem_cons.mp ht with rfl | hm
          · simp
          · simp [hm]
        cases hrec : sshLoop up (i + 1) (rest ++ [t0]) n with
        | none => rw [hrec] at h; simp at h
        | some tr' => exact ih (i + 1) (rest ++ [t0]) tr' hrec t hmem

/-- One failed probe: the target is re-enqueued at the tail of the FIFO queue
and a 1-second sleep is recorded after the failed probe. -/
theorem sshLoop_requeue_on_failure (up : Nat → SshTarget → Bool) (i : Nat)
    (t : SshTarget) (rest : List SshTarget) (fuel : Nat) (h : up i t = false) :
    sshLoop up i (t :: rest) (fuel + 1) =
      (sshLoop up (i + 1) (rest ++ [t]) fuel).map fun tr =>
        LiveEvent.probe t false :: LiveEvent.sleepOne :: tr := by
  rw [sshLoop, if_neg (by simp [h])]

/-- A target that never responds keeps the loop running: for any fuel the loop
has not terminated. -/
theorem sshLoop_never_responder_diverges (up : Nat → SshTarget → Bool) (t : SshTarget)
    (hfail : ∀ j, up j t = false) :
    ∀ fuel i queue, t ∈ queue → sshLoop up i queue fuel = none := by
  intro fuel
  induction fuel with
  | zero =>
    intro i queue ht
    cases queue with
    | nil => simp at ht
    | cons t0 rest => rfl
  | succ n ih =>
    intro i queue ht
    cases queue with
    | nil => simp at ht
    | cons t0 rest =>
      rw [sshLoop]
      by_cases hup : up i t0 = true
      · have hmem : t ∈ rest := by
          rcases List.mem_cons.mp ht with rfl | hm
          · exact absurd hup (by simp [hfail i])
          · exact hm
        rw [if_pos hup, ih (i + 1) rest hmem]
        rfl
      · rw [if_neg hup]
        have hmem : t ∈ rest ++ [t0] := by
          rcases List.mem_cons.mp ht with rfl | hm
          · simp
          · simp [hm]
        rw [ih (i + 1) (rest ++ [t0]) hmem]
        rfl

/-- Claim C8: the liveness poller (the `while ssh_targets:` loop of `test_ssh`
probing with `ssh_up`, i.e. accepting exactly banners whose stripped bytes
start with "SSH") terminates only when every target of the initial queue has
responded positively at least once; a failed check re-enqueues the target at
the FIFO tail with a 1-second pause; and a target that never produces a valid
banner makes the loop run forever (no fuel suffices). -/
theorem liveness_poller_contract :
    (∀ (net : Nat → SshTarget → Option String) (i : Nat) (queue : List SshTarget)
        (fuel : Nat) (tr : List LiveEvent),
      sshLoop (fun j u => ssh_up (net j u)) i queue fuel = some tr →
      ∀ t ∈ queue, ∃ j, ssh_up (net j t) = true) ∧
    (∀ (up : Nat → SshTarget → Bool) (i : Nat) (t : SshTarget) (rest : List SshTarget)
        (fuel : Nat), up i t = false →
      sshLoop up i (t :: rest) (fuel + 1) =
        (sshLoop up (i + 1) (rest ++ [t]) fuel).map fun tr =>
          LiveEvent.probe t false :: LiveEvent.sleepOne :: tr) ∧
    (∀ (net : Nat → SshTarget → Option String) (t : SshTarget) (queue : List SshTarget),
      t ∈ queue → (∀ j, ssh_up (net j t) = false) →
      ∀ i fuel, sshLoop (fun j u => ssh_up (net j u)) i queue fuel = none) :=
  ⟨fun net i queue fuel tr h t ht =>
    sshLoop_terminates_only_all_up (fun j u => ssh_up (net j u)) fuel i queue tr h t ht,
   fun up i t rest fuel h => sshLoop_requeue_on_failure up i t rest fuel h,
   fun net t queue ht hfail i fuel =>
    sshLoop_never_responder_diverges (fun j u => ssh_up (net j u)) t
      (fun j => hfail j) fuel i queue ht⟩

/-- Witness for C8: a single target whose connection always fails keeps the
loop running after 5 iterations. -/
theorem liveness_poller_contract_witness :
    sshLoop (fun j u => ssh_up ((fun _ _ => (none : Option String)) j u)) 0
      [⟨"vm-1", "203.0.113.7", 22⟩] 5 = none :=
  liveness_poller_contract.2.2 (fun _ _ => none) ⟨"vm-1", "203.0.113.7", 22⟩
    [⟨"vm-1", "203.0.113.7", 22⟩] (by simp) (fun j => rfl) 0 5

end AzureTesting
